import Mathlib

/-!
Verification of `marda_extractors_api` (module `marda_extractors_api/__init__.py`)
against its natural-language specification.

The Python module is shallowly embedded below.  Python strings are Lean
`String`s (equivalently their `List Char` of code points); `pathlib.Path`
values are carried as their string form (no path normalisation is modelled);
`None`-able values are `Option`s; a raised exception is an `Except.error`
carrying a `PyErr`.  The outside world touched by the module — `subprocess`
invocations, `pip`'s success or failure for a given package, the filesystem,
`urllib.request.urlretrieve`, and the dynamic-import Python execution paths —
is abstracted as an `Env` of oracles, and every externally visible action is
recorded in an `Effect` trace that the embedded functions return alongside
their result.
-/

set_option autoImplicit false

namespace Marda

/-! ## Python string primitives

Helpers mirroring the exact Python string operations used by the source:
`str.strip`, `str.split` (single-character separators only — the source only
ever splits on `"("`, `")"`, `","`, `"="`, `"."`), `str.startswith`,
`str.endswith`, `str.removeprefix`, `str.removesuffix`, `str.replace` and
`repr` of a string. -/

/-- The single-quote character, i.e. Python `"'"`. -/
def squote : Char := '\''

/-- The double-quote character, i.e. Python `'"'`. -/
def dquote : Char := '"'

/-- Python `str.strip()` whitespace: the ASCII whitespace characters
(space, tab, newline, carriage return, vertical tab, form feed). -/
def isPySpace (c : Char) : Bool :=
  c = ' ' || c = '\t' || c = '\n' || c = '\r' || c = '\x0b' || c = '\x0c'

/-- `str.strip()` on a list of characters: drop leading and trailing
whitespace. -/
def stripList (l : List Char) : List Char :=
  ((l.dropWhile isPySpace).reverse.dropWhile isPySpace).reverse

/-- Python `s.strip()`. -/
def pyStrip (s : String) : String := ⟨stripList s.data⟩

/-- Python `s.startswith(c)` for a one-character `c`. -/
def startsC (s : String) (c : Char) : Bool := s.data.head? = some c

/-- Python `s.endswith(c)` for a one-character `c`. -/
def endsC (s : String) (c : Char) : Bool := s.data.getLast? = some c

/-- Python `s.removeprefix(c)` for a one-character prefix `c`. -/
def removePrefixC (s : String) (c : Char) : String :=
  match s.data with
  | c0 :: rest => if c0 = c then ⟨rest⟩ else s
  | [] => s

/-- Python `s.removesuffix(c)` for a one-character suffix `c`. -/
def removeSuffixC (s : String) (c : Char) : String :=
  if s.data.getLast? = some c then ⟨s.data.dropLast⟩ else s

/-- Python `s.split(sep)` for a one-character separator, on the character
list: `"".split(sep) == [""]`, and `n` separators yield `n + 1` pieces. -/
def pySplitC (sep : Char) : List Char → List (List Char)
  | [] => [[]]
  | c :: cs =>
    if c = sep then [] :: pySplitC sep cs
    else
      match pySplitC sep cs with
      | [] => [[c]]
      | h :: t => (c :: h) :: t

/-- Python `s.split(sep)` for a one-character separator, on strings. -/
def pySplit1 (sep : Char) (s : String) : List String :=
  (pySplitC sep s.data).map List.asString

/-- Python `s.replace(pat, rep)` on character lists, driven by a fuel
counter that starts at the length of the subject (so the `0` case is never
reached): leftmost non-overlapping occurrences of `pat` are replaced by
`rep`.  An empty `pat` leaves the subject unchanged (the source never
replaces an empty pattern). -/
def listReplaceF (pat rep : List Char) : Nat → List Char → List Char
  | _, [] => []
  | 0, l => l
  | Nat.succ fuel, c :: cs =>
    if pat ≠ [] ∧ pat.isPrefixOf (c :: cs)
    then rep ++ listReplaceF pat rep fuel (cs.drop (pat.length - 1))
    else c :: listReplaceF pat rep fuel cs

/-- Python `s.replace(pat, rep)` (for non-empty `pat`). -/
def pyReplace (s pat rep : String) : String :=
  ⟨listReplaceF pat.data rep.data s.data.length s.data⟩

/-- One character of Python `repr` of a string, given the chosen quote
character `q` (models CPython for printable ASCII content). -/
def pyReprChar (q : Char) (c : Char) : String :=
  if c = '\\' then "\\\\"
  else if c = q then "\\" ++ String.singleton q
  else if c = '\n' then "\\n"
  else if c = '\r' then "\\r"
  else if c = '\t' then "\\t"
  else String.singleton c

/-- Python `repr` of a string (models CPython for strings of printable
characters): single quotes unless the string contains a single quote and no
double quote, in which case double quotes. -/
def pyReprStr (s : String) : String :=
  let q := if s.data.contains squote ∧ ¬ s.data.contains dquote then dquote else squote
  String.singleton q ++ String.join (s.data.map (pyReprChar q)) ++ String.singleton q

/-! ## Data model and environment -/

/-- `SupportedExecutionMethod` from the source: the `"cli"` and `"python"`
usage methods. -/
inductive SupportedExecutionMethod
  | CLI
  | PYTHON
deriving DecidableEq, Repr

/-- `SupportedInstallationMethod` from the source: the `"pip"` and `"conda"`
installation methods. -/
inductive SupportedInstallationMethod
  | PIP
  | CONDA
deriving DecidableEq, Repr

/-- `SupportedExecutionMethod(value)`: `none` models the `ValueError` the
enum constructor raises on any other string. -/
def parseExecMethod : String → Option SupportedExecutionMethod
  | "cli" => some .CLI
  | "python" => some .PYTHON
  | _ => none

/-- `SupportedInstallationMethod(value)`: `none` models the `ValueError` the
enum constructor raises on any other string. -/
def parseInstallMethod : String → Option SupportedInstallationMethod
  | "pip" => some .PIP
  | "conda" => some .CONDA
  | _ => none

/-- One element of a registry entry's `supported_filetypes` list: an id and
an optional per-filetype template mapping (`filetype.get("template")`). -/
structure Filetype where
  id : String
  template : Option (List (String × String))
deriving DecidableEq, Repr

/-- One element of a registry entry's `installation` list. -/
structure InstallRecipe where
  method : String
  packages : List String
deriving DecidableEq, Repr

/-- One element of a registry entry's `usage` list (`setup` may be JSON
`null`, hence an `Option`). -/
structure UsageRecipe where
  method : String
  command : String
  setup : Option String
deriving DecidableEq, Repr

/-- The registry entry dictionary, restricted to the keys the module
reads. -/
structure Entry where
  id : String
  supported_filetypes : List Filetype
  installation : List InstallRecipe
  usage : List UsageRecipe
deriving DecidableEq, Repr

/-- The Python exceptions the module can raise. -/
inductive PyErr
  | runtimeError (msg : String)
  | valueError (msg : String)
  | calledProcessError
  | unboundLocalError
  | indexError
deriving DecidableEq, Repr

/-- A subprocess invocation: `subprocess...(cmd, shell=True)` on a command
string, or an argument-vector call. -/
inductive Invocation
  | shell (cmd : String)
  | argv (args : List String)
deriving DecidableEq, Repr

/-- Externally visible actions, recorded in order. -/
inductive Effect
  | fetched (url tmp : String)
  | venvCreated (dir : String)
  | ran (inv : Invocation)
  | pythonExecuted (inVenv : Bool) (command : String) (setup : Option String)
  | unlinked (path : String)
deriving DecidableEq, Repr

/-- The outside world as oracles: `run` is the outcome of a subprocess
invocation (`Except.error` models a non-zero exit raised as
`CalledProcessError`), `pipOk` says whether `pip install` of a package
succeeds, `fsExists` is `Path.exists()` at the moment of each check,
`urlretrieve` gives the temporary filename `urllib.request.urlretrieve`
downloads to, and `pyRun` is the outcome of the dynamic-import Python
execution paths (`_execute_python` / `_execute_python_venv`), which this
development treats as an oracle. -/
structure Env where
  run : Invocation → Except Unit String
  pipOk : String → Bool
  fsExists : String → Bool
  urlretrieve : String → String
  pyRun : Bool → String → Option String → Except PyErr String

/-- `BIN` on a POSIX platform. -/
def BIN : String := "bin"

/-- The venv directory for an entry id
(`... / "marda-venvs" / f"env-{id}"`); the absolute prefix up to the
package directory is abstracted away. -/
def venvDirStr (id : String) : String := "marda-venvs/env-" ++ id

/-- The `pip install` argument vector for one package, run with the venv's
interpreter when a venv is configured and bare `"python"` otherwise. -/
def pipInvocation (venvDir : Option String) (p : String) : Invocation :=
  .argv [(match venvDir with
          | some d => d ++ "/" ++ BIN ++ "/python"
          | none => "python"), "-m", "pip", "install", p]

/-! ## `MardaExtractor.install` -/

/-- The inner loop of one `pip` recipe: `subprocess.run(..., check=True)`
for each package in order; the first failing package raises (recorded, then
caught by the recipe loop), abandoning the rest of the recipe.  Returns
whether the whole recipe succeeded, plus the invocations actually run. -/
def runRecipe (env : Env) (venvDir : Option String) : List String → Bool × List Effect
  | [] => (true, [])
  | p :: ps =>
    let eff := Effect.ran (pipInvocation venvDir p)
    if env.pipOk p then
      let (ok, effs) := runRecipe env venvDir ps
      (ok, eff :: effs)
    else (false, [eff])

/-- The `for instructions in self.entry["installation"]` loop of
`MardaExtractor.install`: an unknown method string raises `ValueError` (from
the enum constructor), a `conda` recipe raises `RuntimeError` (both outside
the `try`, so they abort the loop); a fully successful `pip` recipe breaks
out of the loop; a partially failed one falls through to the next recipe;
an exhausted loop returns normally. -/
def installLoop (env : Env) (venvDir : Option String) :
    List InstallRecipe → Except PyErr Unit × List Effect
  | [] => (.ok (), [])
  | r :: rs =>
    match parseInstallMethod r.method with
    | none => (.error (.valueError ("'" ++ r.method ++ "' is not a valid SupportedInstallationMethod")), [])
    | some .CONDA =>
      (.error (.runtimeError ("Installation method " ++ r.method ++ " not yet supported")), [])
    | some .PIP =>
      let (ok, effs) := runRecipe env venvDir r.packages
      if ok then (.ok (), effs)
      else
        let (res, effs2) := installLoop env venvDir rs
        (res, effs ++ effs2)

/-- `MardaExtractor.install`: raises `RuntimeError` when the entry carries
no (or an empty) `installation` list, and otherwise runs the recipe loop.
(The message string is the source's literal — the source forgot the `f`
prefix on the f-string, so the braces appear verbatim.) -/
def MardaExtractor.install (env : Env) (venvDir : Option String) (entry : Entry) :
    Except PyErr Unit × List Effect :=
  if entry.installation.isEmpty then
    (.error (.runtimeError "No installation instructions provided for \x7bself.entry.get('id', self.entry)\x7d"), [])
  else installLoop env venvDir entry.installation

/-! ## The usage-language parser (`MardaExtractor._prepare_python`) -/

/-- The local function `dequote` inside `_prepare_python`: strip
whitespace; if the token starts *or* ends with a single quote, remove a
single quote from each end where present; otherwise, if it starts or ends
with a double quote, likewise; finally strip whitespace again. -/
def dequote (s : String) : String :=
  let s1 := pyStrip s
  let s2 :=
    if startsC s1 squote || endsC s1 squote then
      removeSuffixC (removePrefixC s1 squote) squote
    else if startsC s1 dquote || endsC s1 dquote then
      removeSuffixC (removePrefixC s1 dquote) dquote
    else s1
  pyStrip s2

/-- The argument region of a command string,
`command.split("(")[1].split(")")[0]`: `none` models the `IndexError` when
the command contains no `(`. -/
def argRegion (command : String) : Option String :=
  match (pySplitC '(' command.data).get? 1 with
  | none => none
  | some chunk => some ((pySplitC ')' chunk).headD []).asString

/-- The local function `_parse_python_arg`: a segment containing `=` is a
keyword argument, rejected (`RuntimeError`) when the `=`-split has more
than two parts or the segment contains `\x7b` or `\x7d`; any other segment
is a positional argument.  Keys and values are `dequote`d. -/
def parsePythonArg (arg : String) : Except PyErr (String ⊕ (String × String)) :=
  if arg.data.contains '=' then
    let split_arg := pySplit1 '=' arg
    if split_arg.length > 2 ∨ arg.data.contains '\x7b' ∨ arg.data.contains '\x7d' then
      .error (.runtimeError ("Cannot parse " ++ arg))
    else .ok (.inr (dequote (split_arg.headD ""), dequote ((split_arg.get? 1).getD "")))
  else .ok (.inl (dequote arg))

/-- Python `dict.update` with a single key on an insertion-ordered
association list: an existing key keeps its position and gets the new
value; a new key is appended. -/
def dictUpdate (d : List (String × String)) (k v : String) : List (String × String) :=
  if d.any (fun p => p.1 = k) then
    d.map (fun p => if p.1 = k then (k, v) else p)
  else d ++ [(k, v)]

/-- The segment loop of `_prepare_python`, accumulating positional and
keyword arguments in order. -/
def segmentsLoop : List String → List String → List (String × String) →
    Except PyErr (List String × List (String × String))
  | [], args, kwargs => .ok (args, kwargs)
  | seg :: rest, args, kwargs =>
    match parsePythonArg seg with
    | .error e => .error e
    | .ok (.inl pos) => segmentsLoop rest (args ++ [pos]) kwargs
    | .ok (.inr (k, v)) => segmentsLoop rest args (dictUpdate kwargs k v)

/-- `MardaExtractor._prepare_python`: the dotted symbol path is
`command.split("(")[0].split(".")`; the argument region (see `argRegion`)
is split on `,` and each segment parsed by `_parse_python_arg`. -/
def MardaExtractor.prepare_python (command : String) :
    Except PyErr (List String × List String × List (String × String)) :=
  let function_tree := pySplit1 '.' ((pySplitC '(' command.data).headD []).asString
  match argRegion command with
  | none => .error .indexError
  | some region =>
    match segmentsLoop (pySplit1 ',' region) [] [] with
    | .error e => .error e
    | .ok (args, kwargs) => .ok (function_tree, args, kwargs)

/-! ## The template resolver (`MardaExtractor.apply_template_args`) -/

/-- The placeholder marker the source replaces for a field:
`f"\x7b\x7b\x7b\x7b \x7bfield\x7d \x7d\x7d\x7d\x7d"`, i.e. double braces with one space on
each side of the field name. -/
def marker (field : String) : String := "\x7b\x7b " ++ field ++ " \x7d\x7d"

/-- The fields the resolver recognises (`default_fields` in the source is a
set literal; its iteration order is unspecified in Python, and this
development fixes the order written in the source — the order is
unobservable unless a substituted value itself contains another field's
marker). -/
def default_fields : List String := ["input_type", "input_path", "output_type", "output_path"]

/-- Python `X or Y` where `X` is `additional_template.get(field)` and `Y`
the like-named parameter: a missing or falsy (empty-string) override falls
back to `Y`. -/
def pyOr (x : Option String) (y : Option String) : Option String :=
  match x with
  | some v => if v = "" then y else some v
  | none => y

/-- `locals()[field]` inside the resolver's loop. -/
def localsValue (input_type input_path : String)
    (output_type output_path : Option String) : String → Option String
  | "input_type" => some input_type
  | "input_path" => some input_path
  | "output_type" => output_type
  | "output_path" => output_path
  | _ => none

/-- One iteration of the resolver's loop: a `None` resolved value is
skipped; otherwise every occurrence of the field's marker is replaced —
with the bare value for CLI, and with `repr(str(value))` for Python. -/
def substituteField (method : SupportedExecutionMethod) (command : String)
    (value : Option String) (field : String) : String :=
  match value with
  | none => command
  | some v =>
    pyReplace command (marker field)
      (if method = .CLI then v else pyReprStr v)

/-- `MardaExtractor.apply_template_args`.  String and path parameters are
carried as strings; a missing `additional_template` is `none` (the source
normalises it to `\x7b\x7d`). -/
def MardaExtractor.apply_template_args (command : String)
    (method : SupportedExecutionMethod) (input_type input_path : String)
    (output_type output_path : Option String)
    (additional_template : Option (List (String × String))) : String :=
  let tmpl := additional_template.getD []
  default_fields.foldl
    (fun cmd field =>
      substituteField method cmd
        (pyOr (tmpl.lookup field) (localsValue input_type input_path output_type output_path field))
        field)
    command

/-! ## `MardaExtractor.parse_usage` -/

/-- `MardaExtractor.parse_usage`: walk the usage list; return the first
recipe whose (enum-parsed) method equals `preferred_mode`, and after an
exhausted loop return the variables left over from the last iteration.  An
empty list raises `UnboundLocalError` (the `return` reads names never
assigned); an invalid method string raises `ValueError` from the enum
constructor. -/
def MardaExtractor.parse_usage (usage : List UsageRecipe)
    (preferred_mode : SupportedExecutionMethod) :
    Except PyErr (SupportedExecutionMethod × String × Option String) :=
  match usage with
  | [] => .error .unboundLocalError
  | r :: rs =>
    match parseExecMethod r.method with
    | none => .error (.valueError ("'" ++ r.method ++ "' is not a valid SupportedExecutionMethod"))
    | some m =>
      if m = preferred_mode then .ok (m, r.command, r.setup)
      else
        match rs with
        | [] => .ok (m, r.command, r.setup)
        | _ :: _ => MardaExtractor.parse_usage rs preferred_mode

/-! ## `pathlib.Path.with_suffix(".json")` -/

/-- The length of `PurePath.suffix` of a file name: the part from the last
dot, provided that dot is neither the first nor past the last character;
otherwise the name has no suffix. -/
def pathlibSuffixLen (name : List Char) : Nat :=
  match name.reverse.findIdx? (fun c => c = '.') with
  | none => 0
  | some j =>
    let i := name.length - 1 - j
    if 0 < i ∧ i < name.length - 1 then j + 1 else 0

/-- `str(Path(p).with_suffix(".json"))` for a path string whose final
component is a regular file name: the final `/`-component has its pathlib
suffix (if any) replaced by `.json`.  (Path normalisation and the
`ValueError` pathlib raises for an empty name are not modelled; theorems
about it restrict to paths with a regular final component.) -/
def withSuffixJson (p : String) : String :=
  let parts := pySplitC '/' p.data
  let name := parts.getLastD []
  let stem := name.take (name.length - pathlibSuffixLen name)
  ⟨List.intercalate ['/'] (parts.dropLast ++ [stem ++ (".json").data])⟩

/-- Whether a path string's final `/`-component is a regular file name, so
that `withSuffixJson` is a faithful model of
`pathlib.Path(...).with_suffix(".json")` on it. -/
def validPathName (p : String) : Bool :=
  let name := (pySplitC '/' p.data).getLastD []
  ¬ (name = [] ∨ name = ['.'] ∨ name = ['.', '.'])

/-! ## `MardaExtractor.execute` -/

/-- The lookup loop over `entry["supported_filetypes"]`: the first filetype
whose id matches yields its (optional) template; `none` means the loop's
`else` branch raises `ValueError`. -/
def findTemplate : List Filetype → String → Option (Option (List (String × String)))
  | [], _ => none
  | ft :: fts, input_type =>
    if ft.id = input_type then some ft.template else findTemplate fts input_type

/-- The generated `python -c` payload of `_execute_cli_venv`. -/
def venvShellWrapper (cmd : String) : String :=
  "import subprocess; subprocess.check_output(r'" ++ cmd ++ "', shell=True)"

/-- The subprocess invocation of the CLI branch: ambient mode runs the
resolved command with `shell=True`; venv mode prefixes the command with the
venv's `bin` directory and runs it through the venv's interpreter. -/
def cliInvocation (useVenv : Bool) (entryId command : String) : Invocation :=
  if useVenv then
    .argv [venvDirStr entryId ++ "/" ++ BIN ++ "/python", "-c",
           venvShellWrapper (venvDirStr entryId ++ "/" ++ BIN ++ "/" ++ command)]
  else .shell command

/-- `MardaExtractor.execute`: check the input type is supported (else
`ValueError`, before anything runs); select the usage recipe; default the
output path to the input path with suffix `.json`; resolve the command and
(if present) setup templates; then either run the CLI subprocess — a
non-zero exit raises `CalledProcessError` from `check_output`, and
otherwise a missing output file raises `RuntimeError` — or run the Python
path (an oracle here). -/
def MardaExtractor.execute (env : Env) (entry : Entry)
    (preferred_mode : SupportedExecutionMethod) (useVenv : Bool)
    (input_type input_path : String)
    (output_type output_path : Option String) :
    Except PyErr String × List Effect :=
  match findTemplate entry.supported_filetypes input_type with
  | none =>
    (.error (.valueError ("File type " ++ pyReprStr input_type ++ " not supported by "
        ++ pyReprStr entry.id)), [])
  | some template =>
    match MardaExtractor.parse_usage entry.usage preferred_mode with
    | .error e => (.error e, [])
    | .ok (method, command0, setup0) =>
      let out := match output_path with
        | none => withSuffixJson input_path
        | some p => p
      let command := MardaExtractor.apply_template_args command0 method
        input_type input_path output_type (some out) template
      let setup := setup0.map (fun s => MardaExtractor.apply_template_args s method
        input_type input_path output_type (some out) template)
      match method with
      | .CLI =>
        let inv := cliInvocation useVenv entry.id command
        match env.run inv with
        | .error _ => (.error .calledProcessError, [.ran inv])
        | .ok bytes =>
          if env.fsExists out then (.ok bytes, [.ran inv])
          else (.error (.runtimeError ("Requested output file " ++ out ++ " does not exist")),
                [.ran inv])
      | .PYTHON =>
        (env.pyRun useVenv command setup, [.pythonExecuted useVenv command setup])

/-! ## `extract` -/

/-- `re.match("^http[s]://*", input_path)`: the regex as written requires
the literal characters `https:` followed by one `/` and then any number of
further `/` — the character class `[s]` matches exactly `s` (it is not
optional), and the trailing `*` applies to the second `/`.  So the match
succeeds exactly on strings starting with `https:/`. -/
def matchesUrlRegex (s : String) : Bool :=
  ("https:/").data.isPrefixOf s.data

/-- The `extract` orchestrator, for a call that supplies an
`extractor_definition` (the registry-lookup branch builds the same
`MardaExtractor` from a fetched document and is not modelled).  Inside the
`try`: fetch a matching URL to a temporary file and use it as the input
path; raise `RuntimeError` when the input path does not exist; construct
`MardaExtractor` (creating the venv and running `install` when requested —
an installation error propagates); then `execute`.  The `finally` block
unlinks the temporary file whenever one was fetched, on success and failure
alike. -/
def extract (env : Env) (entry : Entry) (input_path input_type : String)
    (output_path output_type : Option String)
    (preferred_mode : SupportedExecutionMethod)
    (installFlag useVenv : Bool) :
    Except PyErr String × List Effect :=
  let fetched := matchesUrlRegex input_path
  let tmp := env.urlretrieve input_path
  let ip := if fetched then tmp else input_path
  let fetchEffs := if fetched then [Effect.fetched input_path tmp] else []
  let venvDir := if useVenv then some (venvDirStr entry.id) else none
  let (res, effs) :=
    if ¬ env.fsExists ip then
      (.error (.runtimeError ("File " ++ ip ++ " does not exist")), [])
    else
      let venvEffs := if useVenv then [Effect.venvCreated (venvDirStr entry.id)] else []
      let (instRes, instEffs) :=
        if installFlag then MardaExtractor.install env venvDir entry else (.ok (), [])
      match instRes with
      | .error e => (.error e, venvEffs ++ instEffs)
      | .ok _ =>
        let (r, es) := MardaExtractor.execute env entry preferred_mode useVenv
          input_type ip output_type output_path
        (r, venvEffs ++ instEffs ++ es)
  (res, fetchEffs ++ effs ++ (if fetched then [Effect.unlinked tmp] else []))

/-! ## The claimed (spec-worded) variants needed to refute claims -/

/-- The argument region as claim C2 words it: the substring strictly
between the first `(` and the last `)` of the command (`none` when there is
no such pair). -/
def argRegionSpecC2 (s : String) : Option String :=
  match s.data.findIdx? (fun c => c = '('), s.data.reverse.findIdx? (fun c => c = ')') with
  | some i, some j' =>
    let j := s.data.length - 1 - j'
    if i < j then some ⟨(s.data.drop (i + 1)).take (j - i - 1)⟩ else none
  | _, _ => none

/-- Dequoting as claim C6 words it: strip a surrounding *matching* pair of
single or double quotes and trim the remainder; a token not enclosed in a
matching pair keeps its quote characters. -/
def dequoteSpecC6 (s : String) : String :=
  if 2 ≤ s.data.length ∧
      ((s.data.head? = some squote ∧ s.data.getLast? = some squote) ∨
       (s.data.head? = some dquote ∧ s.data.getLast? = some dquote)) then
    pyStrip ⟨s.data.tail.dropLast⟩
  else s

/-- A character that may stand at either end of the content inside (or
beside) a quote without interfering with `dequote`'s quote handling or its
whitespace trimming: not Python whitespace and not a quote. -/
def okEndChar (c : Char) : Bool := !isPySpace c && c != squote && c != dquote

/-! ## Concrete instances used by counterexamples and witnesses -/

/-- An environment in which every `pip` install succeeds except for the
package `ghost-package`, and everything else succeeds. -/
def envGoodPip : Env where
  run := fun _ => .ok "B"
  pipOk := fun p => p != "ghost-package"
  fsExists := fun _ => true
  urlretrieve := fun s => s ++ ".tmpfile"
  pyRun := fun _ _ _ => .ok "PY"

/-- An entry with two installation recipes: the first names the failing
`ghost-package`, the second a package that installs fine. -/
def entryTwoRecipes : Entry where
  id := "tr"
  supported_filetypes := [⟨"csv", none⟩]
  installation := [⟨"pip", ["ghost-package"]⟩, ⟨"pip", ["good-package"]⟩]
  usage := [⟨"cli", "run-extractor", none⟩]

/-- An environment in which every subprocess exits non-zero, every `pip`
install fails, and no path exists. -/
def envAllFail : Env where
  run := fun _ => .error ()
  pipOk := fun _ => false
  fsExists := fun _ => false
  urlretrieve := fun s => s ++ ".tmpfile"
  pyRun := fun _ _ _ => .error (.runtimeError "boom")

/-- An environment in which every subprocess exits zero with output `"B"`,
but no path exists. -/
def envRunOk : Env where
  run := fun _ => .ok "B"
  pipOk := fun _ => true
  fsExists := fun _ => false
  urlretrieve := fun s => s ++ ".tmpfile"
  pyRun := fun _ _ _ => .ok "PY"

/-- An environment in which every subprocess exits zero and every path
exists. -/
def envOkFs : Env where
  run := fun _ => .ok "B"
  pipOk := fun _ => true
  fsExists := fun _ => true
  urlretrieve := fun s => s ++ ".tmpfile"
  pyRun := fun _ _ _ => .ok "PY"

/-- An entry whose single installation recipe names a package that fails to
install, supporting the `csv` filetype with one CLI usage recipe. -/
def entryGhost : Entry where
  id := "ex"
  supported_filetypes := [⟨"csv", none⟩]
  installation := [⟨"pip", ["ghost-package"]⟩]
  usage := [⟨"cli", "run-extractor", none⟩]

/-- An entry whose only installation recipe uses the unsupported `conda`
method. -/
def entryConda : Entry where
  id := "cx"
  supported_filetypes := [⟨"csv", none⟩]
  installation := [⟨"conda", ["pkg"]⟩]
  usage := [⟨"cli", "run-extractor", none⟩]

/-! ## Helper lemmas -/

theorem dropWhile_eq_self_of_head {p : Char → Bool} {l : List Char}
    (h : ∀ c, l.head? = some c → p c = false) : l.dropWhile p = l := by
  cases l with
  | nil => rfl
  | cons a l => simp [List.dropWhile_cons, h a rfl]

theorem head?_dropWhile_false {p : Char → Bool} : ∀ {l : List Char} {c : Char},
    (l.dropWhile p).head? = some c → p c = false := by
  intro l
  induction l with
  | nil => intro c h; simp [List.dropWhile] at h
  | cons a l ih =>
    intro c h
    rw [List.dropWhile_cons] at h
    by_cases hpa : p a = true
    · rw [if_pos hpa] at h; exact ih h
    · rw [if_neg hpa] at h
      injection h with h
      rw [← h]
      exact Bool.eq_false_iff.mpr hpa

theorem getLast?_dropWhile_eq {p : Char → Bool} : ∀ {l : List Char},
    l.dropWhile p ≠ [] → (l.dropWhile p).getLast? = l.getLast? := by
  intro l
  induction l with
  | nil => intro h; simp [List.dropWhile] at h
  | cons a l ih =>
    intro h
    rw [List.dropWhile_cons] at h ⊢
    by_cases hpa : p a = true
    · rw [if_pos hpa] at h ⊢
      rw [ih h]
      cases l with
      | nil => simp [List.dropWhile] at h
      | cons b l => rw [List.getLast?_cons_cons]
    · rw [if_neg hpa]

theorem stripList_eq_self {l : List Char}
    (h1 : ∀ c, l.head? = some c → isPySpace c = false)
    (h2 : ∀ c, l.getLast? = some c → isPySpace c = false) :
    stripList l = l := by
  unfold stripList
  rw [dropWhile_eq_self_of_head h1]
  rw [dropWhile_eq_self_of_head (fun c hc => h2 c (by rwa [List.head?_reverse] at hc))]
  exact List.reverse_reverse l

theorem stripList_head_not_space {l : List Char} {c : Char}
    (h : (stripList l).head? = some c) : isPySpace c = false := by
  unfold stripList at h
  rw [List.head?_reverse] at h
  have hne : (l.dropWhile isPySpace).reverse.dropWhile isPySpace ≠ [] := by
    intro h0; rw [h0] at h; simp at h
  rw [getLast?_dropWhile_eq hne, List.getLast?_reverse] at h
  exact head?_dropWhile_false h

theorem stripList_getLast_not_space {l : List Char} {c : Char}
    (h : (stripList l).getLast? = some c) : isPySpace c = false := by
  unfold stripList at h
  rw [List.getLast?_reverse] at h
  exact head?_dropWhile_false h

theorem pySplitC_ne_nil (sep : Char) (l : List Char) : pySplitC sep l ≠ [] := by
  cases l with
  | nil => simp [pySplitC]
  | cons c cs =>
    by_cases hc : c = sep
    · simp [pySplitC, hc]
    · simp only [pySplitC, if_neg hc]
      cases h : pySplitC sep cs <;> simp

theorem pySplitC_head (sep : Char) (l : List Char) :
    (pySplitC sep l).head? = some (l.takeWhile (fun c => c != sep)) := by
  induction l with
  | nil => rfl
  | cons c cs ih =>
    by_cases hc : c = sep
    · subst hc
      simp [pySplitC, List.takeWhile_cons]
    · simp only [pySplitC, if_neg hc]
      cases h : pySplitC sep cs with
      | nil => exact absurd h (pySplitC_ne_nil sep cs)
      | cons hd tl =>
        rw [h] at ih
        simp only [List.head?_cons, Option.some.injEq] at ih ⊢
        rw [List.takeWhile_cons, if_pos (by simp [hc])]
        rw [ih]

theorem pySplitC_get1 (sep : Char) (l : List Char) :
    (pySplitC sep l).get? 1 =
      if l.contains sep then
        some (((l.dropWhile (fun c => c != sep)).tail).takeWhile (fun c => c != sep))
      else none := by
  induction l with
  | nil => rfl
  | cons c cs ih =>
    by_cases hc : c = sep
    · subst hc
      have hcontains : (c :: cs).contains c = true := by simp [List.contains_cons]
      rw [if_pos hcontains]
      have hdrop : List.dropWhile (fun x => x != c) (c :: cs) = c :: cs := by
        rw [List.dropWhile_cons, if_neg (by simp)]
      rw [hdrop, List.tail_cons]
      have hsplit : pySplitC c (c :: cs) = [] :: pySplitC c cs := by
        simp [pySplitC]
      rw [hsplit]
      show (pySplitC c cs).get? 0 = some (cs.takeWhile (fun x => x != c))
      cases h : pySplitC c cs with
      | nil => exact absurd h (pySplitC_ne_nil c cs)
      | cons hd tl =>
        have hh := pySplitC_head c cs
        rw [h] at hh
        simpa using hh
    · have hcontains : (c :: cs).contains sep = cs.contains sep := by
        rw [List.contains_cons, beq_eq_false_iff_ne.mpr (fun h => hc h.symm), Bool.false_or]
      have hdrop : List.dropWhile (fun x => x != sep) (c :: cs)
          = List.dropWhile (fun x => x != sep) cs := by
        rw [List.dropWhile_cons, if_pos (by simp [hc])]
      rw [hcontains, hdrop]
      simp only [pySplitC, if_neg hc]
      cases h : pySplitC sep cs with
      | nil => exact absurd h (pySplitC_ne_nil sep cs)
      | cons hd tl =>
        rw [h] at ih
        exact ih

theorem takeWhile_pred_ext {p q : Char → Bool} (h : ∀ c, p c = q c) :
    ∀ l : List Char, l.takeWhile p = l.takeWhile q := by
  intro l
  induction l with
  | nil => rfl
  | cons a l ih =>
    rw [List.takeWhile_cons, List.takeWhile_cons, h a, ih]

theorem okEndChar_not_space {c : Char} (h : okEndChar c = true) : isPySpace c = false := by
  simp only [okEndChar, Bool.and_eq_true, Bool.not_eq_true', bne_iff_ne] at h
  exact h.1.1

theorem okEndChar_ne_squote {c : Char} (h : okEndChar c = true) : c ≠ squote := by
  simp only [okEndChar, Bool.and_eq_true, Bool.not_eq_true', bne_iff_ne] at h
  exact h.1.2

theorem okEndChar_ne_dquote {c : Char} (h : okEndChar c = true) : c ≠ dquote := by
  simp only [okEndChar, Bool.and_eq_true, Bool.not_eq_true', bne_iff_ne] at h
  exact h.2

/-! ## Claim C4 -/

/-- Claim C4: the usage-language parser satisfies the fixed literal cases —
`extract("a","b")` yields symbol path `["extract"]`, positionals
`["a","b"]` and no keywords; `extract(filename="x", type="y")` yields
symbol path `["extract"]`, no positionals and keywords
`filename ↦ x, type ↦ y`; and a keyword argument whose value contains a
brace raises an error (`RuntimeError` in the source, the spec's
ParseError). -/
theorem prepare_python_fixed_cases :
    MardaExtractor.prepare_python "extract(\"a\",\"b\")" = .ok (["extract"], ["a", "b"], [])
    ∧ MardaExtractor.prepare_python "extract(filename=\"x\", type=\"y\")" =
        .ok (["extract"], [], [("filename", "x"), ("type", "y")])
    ∧ MardaExtractor.prepare_python "extract(filename=\"\x7bx\x7d\")" =
        .error (.runtimeError "Cannot parse filename=\"\x7bx\x7d\"") :=
  ⟨rfl, rfl, rfl⟩

/-! ## Claim C2 -/

/-- Claim C2 (counterexample): on the parsed command `m.f(a).g(b)` the
parser's argument region is `a` — the text between the first `(` and the
*first* `)` — whereas the region between the first `(` and the last `)`
claimed by the spec is `a).g(b`. -/
theorem argRegion_counterexample :
    MardaExtractor.prepare_python "m.f(a).g(b)" = .ok (["m", "f"], ["a"], [])
    ∧ argRegion "m.f(a).g(b)" = some "a"
    ∧ argRegionSpecC2 "m.f(a).g(b)" = some "a).g(b"
    ∧ argRegion "m.f(a).g(b)" ≠ argRegionSpecC2 "m.f(a).g(b)" :=
  ⟨rfl, rfl, by decide, by decide⟩

/-- Claim C2 (amended): for every command string containing a `(`, the
argument region is the substring starting right after the first `(` and
truncated at the next `(` or `)` (whichever comes first; to the end of the
string if neither occurs), and that region is what is split on `,`; a
command with no `(` raises `IndexError`. -/
theorem argRegion_after_first_paren (s : String) :
    argRegion s =
      (if s.data.contains '(' then
        some ⟨((s.data.dropWhile (fun c => c != '(')).tail).takeWhile
          (fun c => c != '(' && c != ')')⟩
      else none) := by
  unfold argRegion
  rw [pySplitC_get1]
  by_cases h : s.data.contains '('
  · rw [if_pos h, if_pos h]
    have hd : ∀ X : List Char, (pySplitC ')' X).headD [] = X.takeWhile (fun c => c != ')') := by
      intro X
      have hh := pySplitC_head ')' X
      cases hsp : pySplitC ')' X with
      | nil => exact absurd hsp (pySplitC_ne_nil _ _)
      | cons a t => rw [hsp] at hh; simpa using hh
    show some ((pySplitC ')' _).headD []).asString = _
    rw [hd]
    rw [List.takeWhile_takeWhile]
    rw [takeWhile_pred_ext (q := fun c => c != '(' && c != ')')
      (fun c => by by_cases h1 : c = '(' <;> by_cases h2 : c = ')' <;> simp [h1, h2]) _]
    rfl
  · rw [if_neg h, if_neg h]

/-! ## Claim C6 -/

/-- Claim C6 (counterexample): the token `'abc` is not enclosed in a
matching quote pair, yet `dequote` strips its leading quote; the claimed
behaviour (`dequoteSpecC6`) would keep it. -/
theorem dequote_counterexample :
    dequote "'abc" = "abc"
    ∧ dequoteSpecC6 "'abc" = "'abc"
    ∧ dequote "'abc" ≠ dequoteSpecC6 "'abc" :=
  ⟨rfl, by decide, by decide⟩

theorem stripList_quote_pair (q : Char) (hq : isPySpace q = false) (l : List Char) :
    stripList (q :: (l ++ [q])) = q :: (l ++ [q]) := by
  apply stripList_eq_self
  · intro c hc
    injection hc with hc
    rw [← hc]; exact hq
  · intro c hc
    rw [show q :: (l ++ [q]) = (q :: l) ++ [q] from rfl, List.getLast?_concat] at hc
    injection hc with hc
    rw [← hc]; exact hq

theorem stripList_okEnds {l : List Char}
    (hh : ∀ c, l.head? = some c → okEndChar c = true)
    (hg : ∀ c, l.getLast? = some c → okEndChar c = true) :
    stripList l = l :=
  stripList_eq_self (fun c hc => okEndChar_not_space (hh c hc))
    (fun c hc => okEndChar_not_space (hg c hc))

theorem removeSuffixC_of_ne {l : List Char} {q : Char}
    (h : ∀ c, l.getLast? = some c → c ≠ q) : removeSuffixC ⟨l⟩ q = ⟨l⟩ := by
  unfold removeSuffixC
  cases hgl : l.getLast? with
  | none => simp
  | some c => simp [h c hgl]

/-- Claim C6 (amended): `dequote` first trims Python whitespace, then — if
the token starts *or* ends with a single quote — removes one single quote
from each end where present (otherwise the same for double quotes), then
trims again.  A surrounding matching pair is stripped, but an unmatched
leading or trailing quote is stripped too; only a token neither starting
nor ending with a quote keeps all its non-whitespace characters.  Stated
for content `l` whose boundary characters are neither quotes nor
whitespace. -/
theorem dequote_amended :
    (∀ l : List Char,
      (∀ c, l.head? = some c → okEndChar c = true) →
      (∀ c, l.getLast? = some c → okEndChar c = true) →
      dequote ⟨squote :: (l ++ [squote])⟩ = ⟨l⟩
      ∧ dequote ⟨dquote :: (l ++ [dquote])⟩ = ⟨l⟩
      ∧ dequote ⟨squote :: l⟩ = ⟨l⟩
      ∧ dequote ⟨l ++ [squote]⟩ = ⟨l⟩)
    ∧ (∀ s : String,
      (∀ c, (pyStrip s).data.head? = some c → c ≠ squote ∧ c ≠ dquote) →
      (∀ c, (pyStrip s).data.getLast? = some c → c ≠ squote ∧ c ≠ dquote) →
      dequote s = pyStrip s) := by
  constructor
  · intro l hh hg
    have hstrip : ∀ q, isPySpace q = false →
        pyStrip ⟨q :: (l ++ [q])⟩ = ⟨q :: (l ++ [q])⟩ :=
      fun q hq => congrArg String.mk (stripList_quote_pair q hq l)
    have hinner : pyStrip ⟨l⟩ = ⟨l⟩ := congrArg String.mk (stripList_okEnds hh hg)
    refine ⟨?_, ?_, ?_, ?_⟩
    · simp only [dequote]
      rw [hstrip squote (by decide)]
      rw [show startsC ⟨squote :: (l ++ [squote])⟩ squote = true from by simp [startsC]]
      rw [Bool.true_or, if_pos rfl]
      rw [show removePrefixC ⟨squote :: (l ++ [squote])⟩ squote = ⟨l ++ [squote]⟩ from by
        simp [removePrefixC]]
      rw [show removeSuffixC ⟨l ++ [squote]⟩ squote = ⟨l⟩ from by
        simp [removeSuffixC, List.getLast?_concat, List.dropLast_concat]]
      exact hinner
    · simp only [dequote]
      rw [hstrip dquote (by decide)]
      rw [show startsC ⟨dquote :: (l ++ [dquote])⟩ squote = false from rfl]
      rw [show endsC ⟨dquote :: (l ++ [dquote])⟩ squote = false from by
        simp only [endsC]
        rw [show dquote :: (l ++ [dquote]) = (dquote :: l) ++ [dquote] from rfl,
          List.getLast?_concat]
        decide]
      rw [Bool.or_self, if_neg (by simp)]
      rw [show startsC ⟨dquote :: (l ++ [dquote])⟩ dquote = true from by simp [startsC]]
      rw [Bool.true_or, if_pos rfl]
      rw [show removePrefixC ⟨dquote :: (l ++ [dquote])⟩ dquote = ⟨l ++ [dquote]⟩ from by
        simp [removePrefixC]]
      rw [show removeSuffixC ⟨l ++ [dquote]⟩ dquote = ⟨l⟩ from by
        simp [removeSuffixC, List.getLast?_concat, List.dropLast_concat]]
      exact hinner
    · have hstrip3 : pyStrip ⟨squote :: l⟩ = ⟨squote :: l⟩ := by
        apply congrArg String.mk
        apply stripList_eq_self
        · intro c hc; injection hc with hc; rw [← hc]; decide
        · intro c hc
          cases l with
          | nil => injection hc with hc; rw [← hc]; decide
          | cons b l' =>
            rw [List.getLast?_cons_cons] at hc
            exact okEndChar_not_space (hg c hc)
      simp only [dequote]
      rw [hstrip3]
      rw [show startsC ⟨squote :: l⟩ squote = true from by simp [startsC]]
      rw [Bool.true_or, if_pos rfl]
      rw [show removePrefixC ⟨squote :: l⟩ squote = ⟨l⟩ from by simp [removePrefixC]]
      rw [removeSuffixC_of_ne (fun c hc => okEndChar_ne_squote (hg c hc))]
      exact hinner
    · cases l with
      | nil => rfl
      | cons a l' =>
        have hha : okEndChar a = true := hh a rfl
        have hstrip4 : pyStrip ⟨(a :: l') ++ [squote]⟩ = ⟨(a :: l') ++ [squote]⟩ := by
          apply congrArg String.mk
          apply stripList_eq_self
          · intro c hc
            rw [List.cons_append, List.head?_cons] at hc
            injection hc with hc
            rw [← hc]; exact okEndChar_not_space hha
          · intro c hc
            rw [List.getLast?_concat] at hc
            injection hc with hc
            rw [← hc]; decide
        simp only [dequote]
        rw [hstrip4]
        rw [show startsC ⟨(a :: l') ++ [squote]⟩ squote = false from by
          simp only [startsC, List.cons_append, List.head?_cons]
          simp [okEndChar_ne_squote hha]]
        rw [show endsC ⟨(a :: l') ++ [squote]⟩ squote = true from by
          simp only [endsC, List.getLast?_concat]
          decide]
        rw [Bool.false_or, if_pos rfl]
        rw [show removePrefixC ⟨(a :: l') ++ [squote]⟩ squote = ⟨(a :: l') ++ [squote]⟩ from by
          simp only [removePrefixC, List.cons_append]
          rw [if_neg (okEndChar_ne_squote hha)]]
        rw [show removeSuffixC ⟨(a :: l') ++ [squote]⟩ squote = ⟨a :: l'⟩ from by
          unfold removeSuffixC
          rw [show a :: l' ++ [squote] = (a :: l') ++ [squote] from (List.cons_append a l' [squote]).symm]
          rw [List.getLast?_concat, List.dropLast_concat]
          simp]
        exact hinner
  · intro s hh hg
    have hs1 : ∀ q, q = squote ∨ q = dquote → startsC (pyStrip s) q = false := by
      intro q hq
      simp only [startsC]
      cases hc : (pyStrip s).data.head? with
      | none => simp
      | some c =>
        rcases hq with hq | hq <;> subst hq
        · simp [(hh c hc).1]
        · simp [(hh c hc).2]
    have hs2 : ∀ q, q = squote ∨ q = dquote → endsC (pyStrip s) q = false := by
      intro q hq
      simp only [endsC]
      cases hc : (pyStrip s).data.getLast? with
      | none => simp
      | some c =>
        rcases hq with hq | hq <;> subst hq
        · simp [(hg c hc).1]
        · simp [(hg c hc).2]
    have hidem : pyStrip (pyStrip s) = pyStrip s := by
      apply congrArg String.mk
      apply stripList_eq_self
      · intro c hc; exact stripList_head_not_space hc
      · intro c hc; exact stripList_getLast_not_space hc
    simp only [dequote]
    rw [hs1 squote (Or.inl rfl), hs2 squote (Or.inl rfl), Bool.or_self, if_neg (by simp)]
    rw [hs1 dquote (Or.inr rfl), hs2 dquote (Or.inr rfl), Bool.or_self, if_neg (by simp)]
    exact hidem

/-- Witness for the amended claim C2: the characterization applied to a
concrete command. -/
theorem argRegion_after_first_paren_witness :
    argRegion "extract(\"a\",\"b\")" = some "\"a\",\"b\"" := by
  rw [argRegion_after_first_paren "extract(\"a\",\"b\")"]
  decide

/-- Witness for the amended claim C6: the amended statement applied to the
content `abc` and the token `  abc  `. -/
theorem dequote_amended_witness :
    dequote "'abc'" = "abc" ∧ dequote "\"abc\"" = "abc"
    ∧ dequote "'abc" = "abc" ∧ dequote "abc'" = "abc"
    ∧ dequote "  abc  " = "abc" := by
  obtain ⟨h1, h2⟩ := dequote_amended
  have hx := h1 ['a', 'b', 'c'] (by decide) (by decide)
  exact ⟨hx.1, hx.2.1, hx.2.2.1, hx.2.2.2, h2 "  abc  " (by decide) (by decide)⟩

/-! ## Claim C3 -/

/-- Claim C3 (counterexample): the placeholder marker the source replaces
is `\x7b\x7b input_path \x7d\x7d` — with one space on each side of the field name —
so the spec's space-less template `run \x7b\x7binput_path\x7d\x7d` with
`input_path = f.txt` under CLI is returned unchanged, not resolved to
`run f.txt`. -/
theorem apply_template_args_counterexample :
    MardaExtractor.apply_template_args "run \x7b\x7binput_path\x7d\x7d" .CLI "csv" "f.txt"
        none none none = "run \x7b\x7binput_path\x7d\x7d"
    ∧ MardaExtractor.apply_template_args "run \x7b\x7binput_path\x7d\x7d" .CLI "csv" "f.txt"
        none none none ≠ "run f.txt" :=
  ⟨rfl, by decide⟩

/-- Claim C3 (amended): `apply_template_args` replaces, for each recognized
field whose resolved value (truthy-override-if-present, else supplied
value) is non-null, every occurrence of the field's placeholder marker
`\x7b\x7b field \x7d\x7d` (with a space on each side of the field name) — inserting
the bare string under CLI, so `run \x7b\x7b input_path \x7d\x7d` with
`input_path = f.txt` yields `run f.txt`, and a `repr`-quoted literal under
PYTHON — and leaves the placeholder of any null-valued field untouched. -/
theorem apply_template_args_amended :
    MardaExtractor.apply_template_args "run \x7b\x7b input_path \x7d\x7d" .CLI "csv" "f.txt"
        none none none = "run f.txt"
    ∧ MardaExtractor.apply_template_args "run \x7b\x7b input_path \x7d\x7d" .PYTHON "csv" "f.txt"
        none none none = "run 'f.txt'"
    ∧ MardaExtractor.apply_template_args "a \x7b\x7b input_path \x7d\x7d b \x7b\x7b input_path \x7d\x7d"
        .CLI "csv" "p" none none none = "a p b p"
    ∧ (∀ method, MardaExtractor.apply_template_args
        "x \x7b\x7b output_path \x7d\x7d y \x7b\x7b output_type \x7d\x7d" method "csv" "f.txt"
        none none none = "x \x7b\x7b output_path \x7d\x7d y \x7b\x7b output_type \x7d\x7d")
    ∧ MardaExtractor.apply_template_args "x \x7b\x7b input_type \x7d\x7d" .CLI "csv" "p" none none
        (some [("input_type", "OV")]) = "x OV" :=
  ⟨rfl, rfl, rfl, fun method => by cases method <;> rfl, rfl⟩

/-- Witness for the amended claim C3: the universally quantified clause
applied to the PYTHON method. -/
theorem apply_template_args_amended_witness :
    MardaExtractor.apply_template_args
      "x \x7b\x7b output_path \x7d\x7d y \x7b\x7b output_type \x7d\x7d" .PYTHON "csv" "f.txt"
      none none none = "x \x7b\x7b output_path \x7d\x7d y \x7b\x7b output_type \x7d\x7d" :=
  apply_template_args_amended.2.2.2.1 .PYTHON

/-! ## Claim C1 -/

theorem runRecipe_fst (env : Env) (vd : Option String) (pkgs : List String) :
    (runRecipe env vd pkgs).1 = pkgs.all env.pipOk := by
  induction pkgs with
  | nil => rfl
  | cons p ps ih =>
    rw [List.all_cons]
    by_cases hp : env.pipOk p = true
    · cases hr : runRecipe env vd ps with
      | mk ok effs =>
        rw [hr] at ih
        simp [runRecipe, hp, hr, ih]
    · have hp' : env.pipOk p = false := Bool.eq_false_iff.mpr hp
      simp [runRecipe, hp']

theorem installLoop_all_fail (env : Env) (vd : Option String) :
    ∀ recipes : List InstallRecipe,
      (∀ r ∈ recipes, r.method = "pip" ∧ r.packages.all env.pipOk = false) →
      (installLoop env vd recipes).1 = .ok () := by
  intro recipes
  induction recipes with
  | nil => intro _; rfl
  | cons r rs ih =>
    intro h
    obtain ⟨hm, hfail⟩ := h r (List.mem_cons_self r rs)
    have hfst := runRecipe_fst env vd r.packages
    rw [hfail] at hfst
    simp only [installLoop, hm]
    cases hr : runRecipe env vd r.packages with
    | mk ok effs =>
      rw [hr] at hfst
      simp only at hfst
      subst hfst
      cases hl : installLoop env vd rs with
      | mk res effs2 =>
        have hres := ih (fun r' hr' => h r' (List.mem_cons_of_mem r hr'))
        rw [hl] at hres
        simpa using hres

/-- Claim C1 (counterexample): with a single pip recipe whose only package
fails to install, `install` raises no error at all — it returns normally —
rather than failing with an error naming the entry id. -/
theorem install_counterexample :
    (MardaExtractor.install envAllFail none entryGhost).1 = .ok ()
    ∧ ∀ e, (MardaExtractor.install envAllFail none entryGhost).1 ≠ .error e := by
  refine ⟨rfl, fun e h => ?_⟩
  rw [show (MardaExtractor.install envAllFail none entryGhost).1
      = Except.ok () from rfl] at h
  exact Except.noConfusion h

/-- Claim C1 (amended): `install` iterates the entry's installation recipes
in order; the first pip recipe whose packages all install successfully wins
(its result is returned with only its own pip invocations, skipping later
recipes); a pip recipe in which any package's install fails is abandoned
and the loop continues with the remaining recipes (so a first recipe naming
a nonexistent package does not abort the call when a later valid recipe
exists); and if no recipe succeeds, `install` returns normally without
raising any error. -/
theorem install_recipe_fallback (env : Env) (vd : Option String) (entry : Entry)
    (r : InstallRecipe) (rest : List InstallRecipe)
    (hinst : entry.installation = r :: rest) (hm : r.method = "pip") :
    (r.packages.all env.pipOk = true →
        MardaExtractor.install env vd entry = (.ok (), (runRecipe env vd r.packages).2))
    ∧ (r.packages.all env.pipOk = false →
        (MardaExtractor.install env vd entry).1 = (installLoop env vd rest).1)
    ∧ ((∀ r' ∈ entry.installation, r'.method = "pip" ∧ r'.packages.all env.pipOk = false) →
        (MardaExtractor.install env vd entry).1 = .ok ()) := by
  have hne : entry.installation.isEmpty = false := by rw [hinst]; rfl
  have hinstall : MardaExtractor.install env vd entry = installLoop env vd (r :: rest) := by
    unfold MardaExtractor.install
    rw [if_neg (by simp [hne]), hinst]
  refine ⟨?_, ?_, ?_⟩
  · intro hall
    have hfst := runRecipe_fst env vd r.packages
    rw [hall] at hfst
    rw [hinstall]
    simp only [installLoop, hm]
    cases hr : runRecipe env vd r.packages with
    | mk ok effs =>
      rw [hr] at hfst
      simp only at hfst
      subst hfst
      rw [show parseInstallMethod "pip" = some SupportedInstallationMethod.PIP from rfl]
      simp
  · intro hfail
    have hfst := runRecipe_fst env vd r.packages
    rw [hfail] at hfst
    rw [hinstall]
    simp only [installLoop, hm]
    cases hr : runRecipe env vd r.packages with
    | mk ok effs =>
      rw [hr] at hfst
      simp only at hfst
      subst hfst
      cases hl : installLoop env vd rest with
      | mk res effs2 =>
        rw [show parseInstallMethod "pip" = some SupportedInstallationMethod.PIP from rfl]
        simp
  · intro h
    rw [hinstall]
    rw [hinst] at h
    exact installLoop_all_fail env vd (r :: rest) h

/-- Witness for the amended claim C1: with the first recipe's package
failing, `install` continues with the remaining recipes (and the second,
valid recipe then succeeds). -/
theorem install_recipe_fallback_witness :
    (MardaExtractor.install envGoodPip none entryTwoRecipes).1
        = (installLoop envGoodPip none [⟨"pip", ["good-package"]⟩]).1
    ∧ (MardaExtractor.install envGoodPip none entryTwoRecipes).1 = .ok () := by
  have h := (install_recipe_fallback envGoodPip none entryTwoRecipes
      ⟨"pip", ["ghost-package"]⟩ [⟨"pip", ["good-package"]⟩] rfl rfl).2.1 (by decide)
  exact ⟨h, by rw [h]; rfl⟩

/-! ## Claim C8 -/

theorem findTemplate_eq_none {fts : List Filetype} {it : String}
    (h : ∀ ft ∈ fts, ft.id ≠ it) : findTemplate fts it = none := by
  induction fts with
  | nil => rfl
  | cons ft fts ih =>
    simp only [findTemplate]
    rw [if_neg (h ft (List.mem_cons_self ft fts))]
    exact ih (fun ft' h' => h ft' (List.mem_cons_of_mem ft h'))

/-- Claim C8: calling `execute` with an `input_type` not listed among the
entry's supported file types raises `ValueError` (the spec's
UnsupportedInputTypeError) with an empty effect trace — no subprocess is
run and no Python execution is attempted, and no usage parsing or
templating result is observable. -/
theorem execute_unsupported_input_type (env : Env) (entry : Entry)
    (pref : SupportedExecutionMethod) (useVenv : Bool) (it ip : String)
    (ot op : Option String)
    (h : ∀ ft ∈ entry.supported_filetypes, ft.id ≠ it) :
    MardaExtractor.execute env entry pref useVenv it ip ot op =
      (.error (.valueError ("File type " ++ pyReprStr it ++ " not supported by "
          ++ pyReprStr entry.id)), []) := by
  unfold MardaExtractor.execute
  rw [findTemplate_eq_none h]

/-- Witness for claim C8 at a concrete entry and input type. -/
theorem execute_unsupported_input_type_witness :
    MardaExtractor.execute envAllFail entryGhost .PYTHON false "not-listed" "in.csv" none none =
      (.error (.valueError "File type 'not-listed' not supported by 'ex'"), []) := by
  rw [execute_unsupported_input_type envAllFail entryGhost .PYTHON false "not-listed" "in.csv"
    none none (by decide)]
  rfl

/-! ## Claim C9 -/

/-- Claim C9: for every non-empty usage list (whose method strings are
valid member values of the execution-method enum, as registry entries
guarantee), `parse_usage` returns the method, command and setup of the
first recipe whose method equals `preferred_mode`; and if no recipe's
method equals `preferred_mode`, it returns the method, command and setup of
the last recipe in the list rather than failing. -/
theorem parse_usage_first_or_last (usage : List UsageRecipe)
    (pref : SupportedExecutionMethod)
    (hne : usage ≠ [])
    (hvalid : ∀ r ∈ usage, (parseExecMethod r.method).isSome) :
    (∀ r, usage.find? (fun x => parseExecMethod x.method == some pref) = some r →
        MardaExtractor.parse_usage usage pref = .ok (pref, r.command, r.setup))
    ∧ (usage.find? (fun x => parseExecMethod x.method == some pref) = none →
        ∃ r, usage.getLast? = some r ∧
          MardaExtractor.parse_usage usage pref =
            .ok ((parseExecMethod r.method).getD pref, r.command, r.setup)) := by
  induction usage with
  | nil => exact absurd rfl hne
  | cons a l ih =>
    obtain ⟨m, hm⟩ := Option.isSome_iff_exists.mp (hvalid a (List.mem_cons_self a l))
    by_cases hmp : m = pref
    · subst hmp
      constructor
      · intro r hr
        simp only [List.find?_cons, hm, beq_self_eq_true] at hr
        injection hr with hr
        subst hr
        simp [MardaExtractor.parse_usage, hm]
      · intro hnone
        simp only [List.find?_cons, hm, beq_self_eq_true] at hnone
        exact Option.noConfusion hnone
    · have hpa : (parseExecMethod a.method == some pref) = false := by
        rw [hm]; simp [hmp]
      cases l with
      | nil =>
        constructor
        · intro r hr
          simp only [List.find?_cons, hpa] at hr
          exact absurd hr (by simp [List.find?])
        · intro _
          refine ⟨a, List.getLast?_singleton a, ?_⟩
          simp only [MardaExtractor.parse_usage, hm]
          rw [if_neg hmp]
          rfl
      | cons b l2 =>
        obtain ⟨ih1, ih2⟩ := ih (by simp)
          (fun r hr => hvalid r (List.mem_cons_of_mem a hr))
        have hstep : MardaExtractor.parse_usage (a :: b :: l2) pref
            = MardaExtractor.parse_usage (b :: l2) pref := by
          simp only [MardaExtractor.parse_usage, hm]
          rw [if_neg hmp]
        constructor
        · intro r hr
          simp only [List.find?_cons, hpa] at hr
          rw [hstep]
          exact ih1 r hr
        · intro hnone
          simp only [List.find?_cons, hpa] at hnone
          obtain ⟨r, hlast, heq⟩ := ih2 hnone
          exact ⟨r, by rw [List.getLast?_cons_cons]; exact hlast, by rw [hstep]; exact heq⟩

/-- Witness for claim C9: a preferred-method hit in the middle of the list,
and a fallback to the last recipe when nothing matches. -/
theorem parse_usage_first_or_last_witness :
    MardaExtractor.parse_usage
        [⟨"cli", "c-cmd", none⟩, ⟨"python", "p-cmd", some "m"⟩] .PYTHON
      = .ok (.PYTHON, "p-cmd", some "m")
    ∧ MardaExtractor.parse_usage
        [⟨"cli", "c1", none⟩, ⟨"cli", "c2", some "s2"⟩] .PYTHON
      = .ok (.CLI, "c2", some "s2") := by
  constructor
  · exact (parse_usage_first_or_last
      [⟨"cli", "c-cmd", none⟩, ⟨"python", "p-cmd", some "m"⟩] .PYTHON
      (by simp) (by decide)).1 ⟨"python", "p-cmd", some "m"⟩ (by decide)
  · obtain ⟨r, hlast, heq⟩ := (parse_usage_first_or_last
      [⟨"cli", "c1", none⟩, ⟨"cli", "c2", some "s2"⟩] .PYTHON
      (by simp) (by decide)).2 (by decide)
    have hr : r = ⟨"cli", "c2", some "s2"⟩ := by
      rw [List.getLast?_cons_cons, List.getLast?_singleton] at hlast
      injection hlast with hlast
      exact hlast.symm
    subst hr
    exact heq

/-! ## Claim C5 -/

/-- Claim C5 (counterexample): in CLI mode, when the subprocess exits
non-zero and never creates the output path, `execute` raises
`CalledProcessError` (from `subprocess.check_output`), not the
output-missing `RuntimeError` — so OutputMissingError is *not* raised
regardless of the exit code. -/
theorem execute_cli_counterexample :
    (MardaExtractor.execute envAllFail entryGhost .CLI false "csv" "in.csv" none
        (some "out.json")).1 = .error .calledProcessError
    ∧ (MardaExtractor.execute envAllFail entryGhost .CLI false "csv" "in.csv" none
        (some "out.json")).1
      ≠ .error (.runtimeError "Requested output file out.json does not exist") := by
  refine ⟨rfl, fun h => ?_⟩
  rw [show (MardaExtractor.execute envAllFail entryGhost .CLI false "csv" "in.csv" none
      (some "out.json")).1 = Except.error PyErr.calledProcessError from rfl] at h
  injection h with h2
  exact PyErr.noConfusion h2

/-- Claim C5 (amended): for every CLI-mode execution whose subprocess exits
zero (`check_output` returns) but whose command never creates the declared
output path, `execute` raises the output-missing `RuntimeError`
(OutputMissingError); when the subprocess exits non-zero,
`CalledProcessError` propagates instead and the output check is never
reached. -/
theorem execute_cli_output_missing (env : Env) (entry : Entry)
    (pref : SupportedExecutionMethod) (useVenv : Bool) (it ip op : String)
    (ot : Option String) (tmpl : Option (List (String × String)))
    (cmd : String) (setup : Option String) (bytes : String)
    (hft : findTemplate entry.supported_filetypes it = some tmpl)
    (hu : MardaExtractor.parse_usage entry.usage pref = .ok (.CLI, cmd, setup))
    (hrun : ∀ inv, env.run inv = .ok bytes)
    (hmiss : env.fsExists op = false) :
    (MardaExtractor.execute env entry pref useVenv it ip ot (some op)).1 =
      .error (.runtimeError ("Requested output file " ++ op ++ " does not exist")) := by
  unfold MardaExtractor.execute
  rw [hft, hu]
  simp [hrun, hmiss]

/-- Witness for the amended claim C5: a concrete zero-exit run with a
missing output file. -/
theorem execute_cli_output_missing_witness :
    (MardaExtractor.execute envRunOk entryGhost .CLI false "csv" "in.csv" none
        (some "out.json")).1
      = .error (.runtimeError "Requested output file out.json does not exist") := by
  have h := execute_cli_output_missing envRunOk entryGhost .CLI false "csv" "in.csv"
    "out.json" none none "run-extractor" none "B" rfl rfl (fun _ => rfl) rfl
  exact h

/-! ## Claim C10 -/

/-- Claim C10: whenever `execute` is called with `output_path = none`, it
behaves exactly as if called with the input path with its suffix replaced
by `.json` — that derived path is substituted before templating — and in
CLI mode the post-run output-existence check is performed against that
derived path.  (`validPathName` restricts to inputs whose final path
component is a regular file name, where the `with_suffix` model is
faithful.) -/
theorem execute_default_output_path (env : Env) (entry : Entry)
    (pref : SupportedExecutionMethod) (useVenv : Bool) (it ip : String)
    (ot : Option String) (tmpl : Option (List (String × String)))
    (cmd : String) (setup : Option String) (bytes : String)
    (_hip : validPathName ip = true)
    (hft : findTemplate entry.supported_filetypes it = some tmpl)
    (hu : MardaExtractor.parse_usage entry.usage pref = .ok (.CLI, cmd, setup))
    (hrun : ∀ inv, env.run inv = .ok bytes) :
    MardaExtractor.execute env entry pref useVenv it ip ot none
      = MardaExtractor.execute env entry pref useVenv it ip ot (some (withSuffixJson ip))
    ∧ (MardaExtractor.execute env entry pref useVenv it ip ot none).1
      = (if env.fsExists (withSuffixJson ip) then .ok bytes
         else .error (.runtimeError ("Requested output file " ++ withSuffixJson ip
             ++ " does not exist"))) := by
  constructor
  · rfl
  · unfold MardaExtractor.execute
    rw [hft, hu]
    by_cases hex : env.fsExists (withSuffixJson ip) = true
    · simp [hrun, hex]
    · have hex' : env.fsExists (withSuffixJson ip) = false := Bool.eq_false_iff.mpr hex
      simp [hrun, hex']

/-- Witness for claim C10: with no output path, `in.csv` under `data/`
derives `data/in.json`, and the CLI existence check is made against it. -/
theorem execute_default_output_path_witness :
    MardaExtractor.execute envRunOk entryGhost .CLI false "csv" "data/in.csv" none none
      = MardaExtractor.execute envRunOk entryGhost .CLI false "csv" "data/in.csv" none
          (some "data/in.json")
    ∧ (MardaExtractor.execute envRunOk entryGhost .CLI false "csv" "data/in.csv" none none).1
      = .error (.runtimeError "Requested output file data/in.json does not exist") := by
  have h := execute_default_output_path envRunOk entryGhost .CLI false "csv" "data/in.csv"
    none none "run-extractor" none "B" rfl rfl rfl (fun _ => rfl)
  rw [show withSuffixJson "data/in.csv" = "data/in.json" from rfl] at h
  refine ⟨h.1, ?_⟩
  rw [h.2]
  rfl

/-! ## Claim C7 -/

/-- Claim C7 (code bug): the URL test `re.match("^http[s]://*", ...)`
requires the literal character `s` (the character class `[s]` is not
optional), so a plain `http://` URL is never fetched: `extract` treats it
as a local path and fails with "File ... does not exist", performing no
fetch and no cleanup — contrary to the documented "path or URL" contract.
An `https://` URL is fetched to a temporary file which is unlinked after
the call, both on success and on failure. -/
theorem extract_http_url_not_fetched :
    matchesUrlRegex "http://example.com/data.mpr" = false
    ∧ matchesUrlRegex "https://example.com/data.mpr" = true
    ∧ extract envAllFail entryGhost "http://example.com/data.mpr" "csv" (some "out.json")
        none .PYTHON true false
      = (.error (.runtimeError "File http://example.com/data.mpr does not exist"), [])
    ∧ extract envOkFs entryGhost "https://e.com/f.mpr" "csv" (some "o") none .CLI false false
      = (.ok "B", [.fetched "https://e.com/f.mpr" "https://e.com/f.mpr.tmpfile",
          .ran (.shell "run-extractor"), .unlinked "https://e.com/f.mpr.tmpfile"])
    ∧ extract envOkFs entryConda "https://e.com/f.mpr" "csv" (some "o") none .CLI true false
      = (.error (.runtimeError "Installation method conda not yet supported"),
          [.fetched "https://e.com/f.mpr" "https://e.com/f.mpr.tmpfile",
           .unlinked "https://e.com/f.mpr.tmpfile"]) :=
  ⟨rfl, rfl, rfl, rfl, rfl⟩

end Marda
